import Mathlib

/-!
Shallow embedding of the `get-sl-inboxes` repository
(`src/smartlead_disconnected_monitor.py` and
`src/fetch_all_accounts_and_convert_to_csv.py`).

Modelling conventions: Python dict-shaped records become structures with
explicit optional fields; Python truthiness is `PVal.truthy`; raised
exceptions are `Except`/`Option`; the keyed Postgres table is an
association list keyed by `email_account_id`; the sequence of HTTP
responses a retry loop observes is an explicit list consumed one response
per `session.get`/`requests.get` call; `time.sleep` calls are recorded as
a list of rational sleep durations in seconds.
-/

namespace SL

/-! String primitives.  The embedding implements Python's string
operations by structural recursion on the character list of a `String`
(Lean's byte-indexed built-ins are replaced by these semantically equal
versions so that every definition evaluates inside the kernel). -/

/-- Python `s.upper()` (ASCII). -/
def upperStr (s : String) : String := ⟨s.data.map Char.toUpper⟩

/-- Python `s.lower()` (ASCII). -/
def lowerStr (s : String) : String := ⟨s.data.map Char.toLower⟩

/-- Strip leading and trailing whitespace from a character list. -/
def trimChars (cs : List Char) : List Char :=
  ((cs.dropWhile Char.isWhitespace).reverse.dropWhile Char.isWhitespace).reverse

/-- Python `s.strip()`. -/
def trimStr (s : String) : String := ⟨trimChars s.data⟩

/-- Python `s[n:]` on character positions. -/
def dropStr (s : String) (n : Nat) : String := ⟨s.data.drop n⟩

/-- Whether `s` is the empty string. -/
def emptyStr (s : String) : Bool := s.data.isEmpty

/-- Split a character list at every comma. -/
def splitCommaChars : List Char → List (List Char)
  | [] => [[]]
  | c :: cs =>
    match splitCommaChars cs with
    | [] => [[]]
    | h :: t => if c = ',' then [] :: h :: t else (c :: h) :: t

/-- Python `s.split(",")`. -/
def splitComma (s : String) : List String :=
  (splitCommaChars s.data).map String.mk

/-- Decimal digit accumulation. -/
def digitsToNat : List Char → Nat → Nat
  | [], acc => acc
  | c :: cs, acc => digitsToNat cs (acc * 10 + (c.toNat - Char.toNat (Char.ofNat 48)))

/-- Python `int(s)` on an already stripped string: an optional sign
followed by at least one decimal digit. -/
def parseIntChars (cs : List Char) : Option Int :=
  match cs with
  | [] => none
  | c :: ds =>
    if c = Char.ofNat 45 then
      if !ds.isEmpty && ds.all Char.isDigit then some (-(digitsToNat ds 0 : Int)) else none
    else if c = Char.ofNat 43 then
      if !ds.isEmpty && ds.all Char.isDigit then some ((digitsToNat ds 0 : Int)) else none
    else
      if (c :: ds).all Char.isDigit then some ((digitsToNat (c :: ds) 0 : Int)) else none

/-- Python `",".join(parts)`. -/
def joinComma : List String → String
  | [] => ""
  | [s] => s
  | s :: rest => s ++ "," ++ joinComma rest

/-- A dynamic (JSON-shaped) Python value, as far as the scripts inspect one. -/
inductive PVal where
  | vNull
  | vBool (b : Bool)
  | vInt (n : Int)
  | vStr (s : String)
deriving DecidableEq

/-- Python truthiness for the values above. -/
def PVal.truthy : PVal → Bool
  | .vNull => false
  | .vBool b => b
  | .vInt n => n != 0
  | .vStr s => !emptyStr s

/-- Python `int(x)`: succeeds on ints and bools and on integer-shaped
strings (surrounding whitespace allowed), raises otherwise. -/
def PVal.toIntOpt : PVal → Option Int
  | .vNull => none
  | .vBool b => some (if b then 1 else 0)
  | .vInt n => some n
  | .vStr s => parseIntChars (trimChars s.data)

/-- The `tag` object inside a tag mapping: `{"name": ...}`. -/
structure TagObj where
  name : Option String := none
deriving DecidableEq

/-- One element of `email_account_tag_mappings`. -/
structure TagMapping where
  tag : Option TagObj := none
deriving DecidableEq

/-- A raw upstream account record, restricted to the keys the monitor's
`normalize` reads.  A `none` field models an absent dictionary key. -/
structure RawAccount where
  id : Option PVal := none
  from_email : Option String := none
  from_name : Option String := none
  type : Option String := none
  is_smtp_success : Option PVal := none
  is_imap_success : Option PVal := none
  email_account_tag_mappings : Option (List TagMapping) := none
deriving DecidableEq

/-- The tag-name collection loop at the top of `normalize`:
`for m in (item.get("email_account_tag_mappings") or []): t = m.get("tag")
or {}; if t.get("name"): tags.append(t["name"])`. -/
def collectTagNames (ms : List TagMapping) : List String :=
  ms.filterMap fun m =>
    match m.tag with
    | none => none
    | some t =>
      match t.name with
      | none => none
      | some s => if emptyStr s then none else some s

/-- `smtp_ok = item.get("is_smtp_success", True)` read through Python
truthiness (the key defaults to `True` only when absent). -/
def smtpHealthy (item : RawAccount) : Bool :=
  (item.is_smtp_success.getD (.vBool true)).truthy

/-- `imap_ok = item.get("is_imap_success", True)` read through Python
truthiness. -/
def imapHealthy (item : RawAccount) : Bool :=
  (item.is_imap_success.getD (.vBool true)).truthy

/-- The normalized record produced by `normalize`.  `disconnection_type`
is `Option String` because the Python code stores `None` when both health
flags are truthy. -/
structure NormalizedAccount where
  email_account_id : Int
  account_id : Int
  from_email : String
  from_name : String
  account_type : String
  tags : String
  disconnection_type : Option String
  payload : RawAccount
deriving DecidableEq

/-- `normalize(item)` from the monitor.  `int(item["id"])` raises
`KeyError` when the key is absent and `ValueError`/`TypeError` when the
value is not integer-convertible; every other field is defensively
defaulted. -/
def normalize (item : RawAccount) : Except String NormalizedAccount :=
  match item.id with
  | none => .error "KeyError: id"
  | some v =>
    match v.toIntOpt with
    | none => .error "ValueError: id"
    | some n =>
      let tags_str := joinComma
        (collectTagNames (item.email_account_tag_mappings.getD []))
      let d : Option String :=
        if !smtpHealthy item && !imapHealthy item then some "SMTP + IMAP"
        else if !smtpHealthy item then some "SMTP"
        else if !imapHealthy item then some "IMAP"
        else none
      .ok { email_account_id := n
            account_id := n
            from_email := item.from_email.getD ""
            from_name := item.from_name.getD ""
            account_type := item.type.getD ""
            tags := tags_str
            disconnection_type := d
            payload := item }

/-- Python's substring test `pat in s` on strings. -/
def strContains (s pat : String) : Bool :=
  (List.range (s.data.length + 1)).any fun i => pat.data.isPrefixOf (s.data.drop i)

/-- The tag-cleaning list comprehension in `classify_group`:
`[t.strip() for t in raw_tags.split(",") if t.strip()]` (the `.upper()`
of the source is applied at the comparison site, which computes the same
results). -/
def cleanTags (raw : String) : List String :=
  (splitComma raw).filterMap fun t =>
    if emptyStr (trimStr t) then none else some (trimStr t)

/-- `any(pat in t for t in tags)` where each tag is upper-cased before the
substring test, exactly as `classify_group` upper-cases every tag. -/
def tagMatches (pat : String) (tags : List String) : Bool :=
  tags.any fun t => strContains (upperStr t) pat

/-- The ordered `if`/`elif` chain of `classify_group`. -/
def classifyTags (tags : List String) : String :=
  if tagMatches "00VO" tags then "VOLTIC"
  else if tagMatches "00EN" tags then "ENDY"
  else if tagMatches "00SM" tags then "SCALEDMAIL"
  else if tagMatches "00CI" tags then "CHEAPINBOXES"
  else if tagMatches "00WI" tags then "WINNR"
  else if tagMatches "00IKR" tags then "INBOXKIT"
  else if tagMatches "00PK" tags then "PEEKER"
  else "DEFAULT"

/-- `classify_group(account)`: reads the CSV `tags` field of a normalized
row and classifies it. -/
def classify_group (acct : NormalizedAccount) : String :=
  classifyTags (cleanTags acct.tags)

/-- The `CHANNEL_MAP` dict of the monitor. -/
def CHANNEL_MAP : List (String × String) :=
  [("VOLTIC", "C0943S4LSGJ"),
   ("ENDY", "C092TPDUW4A"),
   ("SCALEDMAIL", "C07TWN63F4P"),
   ("CHEAPINBOXES", "C092677AKS4"),
   ("WINNR", "C093HJE30R1"),
   ("INBOXKIT", "C09EF1HCH61"),
   ("PEEKER", "C09Q8HD6C75"),
   ("DEFAULT", "C09DKRUHSAD")]

/-- Modelled from the spec: the ordered tag-substring rule table of
`classify_group` written as explicit (substring, group) pairs, used only
to state that the `if`/`elif` chain implements first-match-wins. -/
def GROUP_RULES : List (String × String) :=
  [("00VO", "VOLTIC"),
   ("00EN", "ENDY"),
   ("00SM", "SCALEDMAIL"),
   ("00CI", "CHEAPINBOXES"),
   ("00WI", "WINNR"),
   ("00IKR", "INBOXKIT"),
   ("00PK", "PEEKER")]

/-- Modelled from the spec: first matching rule wins, default group on no
match; compared against `classifyTags` in the C7 theorem. -/
def classifySpec (tags : List String) : String :=
  match GROUP_RULES.find? (fun rule => tagMatches rule.1 tags) with
  | some rule => rule.2
  | none => "DEFAULT"

/-- One row of the `disconnected_accounts_duplicate` table.  Timestamps
are modelled as `Nat` instants. -/
structure DRow where
  email_account_id : Int
  account_id : Int
  from_email : String
  from_name : String
  account_type : String
  tags : String
  disconnection_type : Option String
  first_disconnected_at : Nat
  last_seen_disconnected_at : Nat
  currently_disconnected : Bool
  disconnect_count : Nat
  last_payload : RawAccount
deriving DecidableEq

/-- The table, keyed by `email_account_id`. -/
abbrev Store := List (Int × DRow)

/-- Bulk update of the rows whose key satisfies `d`, leaving all other
rows untouched. -/
def updWhere (d : Int → Bool) (f : DRow → DRow) (s : Store) : Store :=
  s.map fun p => if d p.1 then (p.1, f p.2) else p

/-- The `INSERT` arm of the upsert: a brand-new row gets
`disconnect_count = 1`, `currently_disconnected = TRUE` and both
timestamps set to `now`. -/
def freshRow (now : Nat) (r : NormalizedAccount) : DRow :=
  { email_account_id := r.email_account_id
    account_id := r.account_id
    from_email := r.from_email
    from_name := r.from_name
    account_type := r.account_type
    tags := r.tags
    disconnection_type := r.disconnection_type
    first_disconnected_at := now
    last_seen_disconnected_at := now
    currently_disconnected := true
    disconnect_count := 1
    last_payload := r.payload }

/-- The `ON CONFLICT ... DO UPDATE` arm: mutable fields are overwritten,
`last_seen_disconnected_at` is refreshed, `currently_disconnected` is
forced `TRUE`, and `disconnect_count` is bumped exactly when the stored
flag was `FALSE`; `first_disconnected_at` is not in the update list. -/
def updateRow (now : Nat) (old : DRow) (r : NormalizedAccount) : DRow :=
  { old with
    from_email := r.from_email
    from_name := r.from_name
    account_type := r.account_type
    tags := r.tags
    disconnection_type := r.disconnection_type
    last_seen_disconnected_at := now
    account_id := r.account_id
    currently_disconnected := true
    disconnect_count :=
      if old.currently_disconnected = false then old.disconnect_count + 1
      else old.disconnect_count
    last_payload := r.payload }

/-- Upsert of a single `VALUES` tuple: conflict on the primary key runs
the update arm against the stored row, otherwise the row is inserted. -/
def upsertRow (now : Nat) (s : Store) (r : NormalizedAccount) : Store :=
  match s.lookup r.email_account_id with
  | some _ =>
    updWhere (fun k => k == r.email_account_id) (fun old => updateRow now old r) s
  | none => s ++ [(r.email_account_id, freshRow now r)]

/-- `upsert_current(rows)`: the bulk upsert, row tuples applied in list
order. -/
def upsert_current (now : Nat) (s : Store) (rows : List NormalizedAccount) : Store :=
  rows.foldl (upsertRow now) s

/-- `load_prev_ids()`: identifiers of the rows with
`currently_disconnected = TRUE`. -/
def load_prev_ids (s : Store) : Finset Int :=
  ((s.filter fun p => p.2.currently_disconnected).map fun p => p.1).toFinset

/-- `mark_reconnected(prev_ids, curr_ids)`: rows whose id lies in
`prev - curr` get `currently_disconnected = FALSE` and nothing else; the
early return on an empty diff is kept. -/
def mark_reconnected (prev curr : Finset Int) (s : Store) : Store :=
  let diff := prev \ curr
  if diff = ∅ then s
  else updWhere (fun k => decide (k ∈ diff))
    (fun row => { row with currently_disconnected := false }) s

/-- One attempted Slack send: the group, its mapped channel, and whether
`chat_postMessage` succeeded (`false` models a caught `SlackApiError`). -/
structure SendAttempt where
  group : String
  channel : String
  ok : Bool
deriving DecidableEq

/-- Insertion-ordered key list of the Python `grouped` dict built with
`setdefault`. -/
def firstDedup (l : List String) : List String :=
  l.foldl (fun acc x => if x ∈ acc then acc else acc ++ [x]) []

/-- The groups of `grouped`, in first-appearance order. -/
def groupKeys (rows : List NormalizedAccount) : List String :=
  firstDedup (rows.map classify_group)

/-- `post_slack_grouped(new_rows, ...)`.  `tokenSet` models the
`SLACK_BOT_TOKEN` guard; `send` is the transport: it reports per-group
success or a caught-and-logged `SlackApiError`.  Groups with no channel
mapping are skipped; a failed send never stops the loop, so the attempt
list is built independently of the outcomes.  Message text (header,
context line, per-record blocks) is formatting only and is not modelled. -/
def post_slack_grouped (tokenSet : Bool) (send : String → Bool)
    (new_rows : List NormalizedAccount) : List SendAttempt :=
  if !tokenSet then []
  else
    (groupKeys new_rows).filterMap fun g =>
      match CHANNEL_MAP.lookup g with
      | none => none
      | some ch => some { group := g, channel := ch, ok := send g }

/-- What one pipeline run produces: the mutated table, the sorted list of
newly-disconnected identifiers handed to the dispatcher, and the Slack
send attempts. -/
structure RunResult where
  store : Store
  new_ids : List Int
  attempts : List SendAttempt
deriving DecidableEq

/-- `main()` after the fetch+normalize phase: compute `curr_ids`, load
`prev_ids` from the pre-upsert store, diff, upsert (skipped when the
fetch is empty), mark reconnections, and notify only when there are new
disconnections.  `id_to_row` is the Python dict comprehension, so a
duplicated identifier resolves to its last occurrence. -/
def runPipeline (now : Nat) (tokenSet : Bool) (send : String → Bool)
    (s : Store) (current : List NormalizedAccount) : RunResult :=
  let curr_ids : Finset Int := (current.map fun r => r.email_account_id).toFinset
  let prev_ids := load_prev_ids s
  let new_ids := curr_ids \ prev_ids
  let newlyIds := new_ids.sort (· ≤ ·)
  let newly := newlyIds.filterMap fun i =>
    (current.filter fun r => r.email_account_id == i).getLast?
  let s1 := if current.isEmpty then s else upsert_current now s current
  let s2 := mark_reconnected prev_ids curr_ids s1
  let attempts := if newly.isEmpty then [] else post_slack_grouped tokenSet send newly
  { store := s2, new_ids := newlyIds, attempts := attempts }

/-- The value of a `Retry-After` header: either parseable as a float
(`float(retry_after)` succeeds) or not. -/
inductive RAVal where
  | parseable (q : Rat)
  | unparseable
deriving DecidableEq

/-- A parsed response envelope: `ok` defaults to `False` in
`data.get("ok", False)`; `accounts` is
`payload.get("data", {}).get("email_accounts", []) or []`. -/
structure PageJson where
  ok : Bool := false
  accounts : List RawAccount := []
deriving DecidableEq

/-- One HTTP response as observed by the scripts: status code, raw body
text, optional `Retry-After` header, and the JSON parse of the body
(`none` when `resp.json()` raises). -/
structure HResp where
  status : Nat
  body : String := ""
  retryAfter : Option RAVal := none
  json : Option PageJson := none
deriving DecidableEq

/-- The body check of `http_get`: `"invalid token" in body_lc or
"jwt malformed" in body_lc` on the lower-cased body. -/
def authFailBody (body : String) : Bool :=
  strContains (lowerStr body) "invalid token" || strContains (lowerStr body) "jwt malformed"

/-- How `http_get` and its callers in the exporter fail. -/
inductive FetchErr where
  | tokenInvalid (msg : String)
  | nonRecoverable (msg : String)
  | scriptExhausted
deriving DecidableEq

/-- `MAX_429_RETRIES` of the exporter. -/
def MAX_429_RETRIES : Nat := 4

/-- The retry loop of `http_get` in the exporter, consuming the scripted
response list one `requests.get` per iteration.  It returns the recorded
sleeps, the response handed back to the caller, and the unconsumed tail
of the script.  `backoff = 1.5`, and the sleep on a 429 is the parsed
`Retry-After` when present, else `backoff * attempt`. -/
def http_get_go (attempt : Nat) (script : List HResp) :
    Except FetchErr (List Rat × HResp × List HResp) :=
  match script with
  | [] => .error .scriptExhausted
  | r :: rest =>
    if r.status = 401 ∨ r.status = 403 ∨ authFailBody r.body then
      .error (.tokenInvalid "Auth rejected")
    else if r.status = 429 then
      if attempt + 1 > MAX_429_RETRIES then
        .error (.nonRecoverable "Too many 429 responses")
      else
        let sleep : Rat :=
          match r.retryAfter with
          | some (.parseable q) => q
          | some .unparseable => (3 / 2 : Rat) * (attempt + 1 : Nat)
          | none => (3 / 2 : Rat) * (attempt + 1 : Nat)
        match http_get_go (attempt + 1) rest with
        | .ok (sleeps, fin, rem) => .ok (sleep :: sleeps, fin, rem)
        | .error e => .error e
    else if 500 ≤ r.status ∧ r.status < 600 then
      .error (.nonRecoverable "Server error")
    else
      .ok ([], r, rest)

/-- `http_get(url, headers, params, timeout)` with `attempt = 0`. -/
def http_get (script : List HResp) : Except FetchErr (List Rat × HResp × List HResp) :=
  http_get_go 0 script

/-- `make_header_variants(token)`: normalize a pasted `Bearer `-bearing
token to its raw form, then produce the candidate `Authorization` values
in probe order (raw first, then bearer).  Since the lower-cased token
starts with `"bearer "`, its first space is at index 6 and
`token.split(" ", 1)[1]` is `token[7:]`. -/
def make_header_variants (token : String) : String × List String :=
  let t0 := trimStr token
  let t := if "bearer ".data.isPrefixOf (lowerStr t0).data then trimStr (dropStr t0 7) else t0
  (t, [t, "Bearer " ++ t])

/-- One auth probe in `select_auth_headers`: the candidate succeeds
exactly when `http_get` returns a response whose JSON parses and carries
a truthy `ok`; every failure path (`TokenInvalidError`,
`NonRecoverableHTTPError`, a JSON parse error, `ok` falsy) falls through
to the next candidate. -/
def probe_ok (script : List HResp) : Bool :=
  match http_get_go 0 script with
  | .ok (_, r, _) =>
    match r.json with
    | some j => j.ok
    | none => false
  | .error _ => false

/-- The candidate loop of `select_auth_headers`: first probing candidate
wins; exhaustion raises `TokenInvalidError`. -/
def selectFirst (cands : List (String × List HResp)) : Except FetchErr String :=
  match cands with
  | [] => .error (.tokenInvalid "Neither RAW nor BEARER Authorization formats worked")
  | (h, sc) :: rest => if probe_ok sc then .ok h else selectFirst rest

/-- `select_auth_headers(token)`: probe the raw variant with `rawScript`
and the bearer variant with `bearerScript`. -/
def select_auth_headers (token : String) (rawScript bearerScript : List HResp) :
    Except FetchErr String :=
  let variants := (make_header_variants token).2
  selectFirst (variants.zip [rawScript, bearerScript])

/-- `REQUEST_LIMIT_PER_PAGE` of the monitor. -/
def REQUEST_LIMIT_PER_PAGE : Nat := 5000

/-- Observable behaviour of `fetch_disconnected`: the offsets requested
(one entry per `session.get`, retries included), the accumulated account
records, and the sleeps performed inside the 429 branch. -/
structure FdResult where
  offsets : List Nat
  items : List RawAccount
  sleeps : List Rat
deriving DecidableEq

/-- The monitor's `fetch_disconnected` loop over a scripted response
list: a 429 sleeps 2 seconds and retries the same offset with no attempt
bound and no `Retry-After` handling; any other `>= 400` status raises via
`raise_for_status` (`none`); a short page ends the loop; a full page
advances `offset += limit`.  The inter-page `PAUSE_SEC` courtesy sleep is
not part of the 429 handling and is not recorded. -/
def fetch_disconnected_go (limit : Nat) : List HResp → Nat → Option FdResult
  | [], _ => none
  | r :: rest, offset =>
    if r.status = 429 then
      (fetch_disconnected_go limit rest offset).map fun res =>
        { res with offsets := offset :: res.offsets, sleeps := (2 : Rat) :: res.sleeps }
    else if 400 ≤ r.status then none
    else
      match r.json with
      | none => none
      | some j =>
        if j.accounts.length < limit then
          some { offsets := [offset], items := j.accounts, sleeps := [] }
        else
          (fetch_disconnected_go limit rest (offset + limit)).map fun res =>
            { res with offsets := offset :: res.offsets, items := j.accounts ++ res.items }

/-- `fetch_disconnected(session)` with its configured page size, starting
at offset 0. -/
def fetch_disconnected (script : List HResp) : Option FdResult :=
  fetch_disconnected_go REQUEST_LIMIT_PER_PAGE script 0

/-- The exporter's `stream_accounts` generator over the successive pages
returned by `fetch_page` (the HTTP/retry layer of `fetch_page` is
modelled by `http_get_go`; here each list element is one successful
page's `email_accounts`).  It stops only on an empty page and advances
`offset += len(accounts)`; the result pairs the offsets requested with
the concatenation of the yielded records. -/
def stream_accounts_go : List (List RawAccount) → Nat → Option (List Nat × List RawAccount)
  | [], _ => none
  | p :: rest, offset =>
    if p.isEmpty then some ([offset], [])
    else
      (stream_accounts_go rest (offset + p.length)).map fun res =>
        (offset :: res.1, p ++ res.2)

/-- `stream_accounts(headers, page_limit)`: the page limit is passed to
each `fetch_page` request but plays no part in the stopping rule. -/
def stream_accounts (_page_limit : Nat) (pages : List (List RawAccount)) :
    Option (List Nat × List RawAccount) :=
  stream_accounts_go pages 0


/-- A bare 429 response. -/
def r429 : HResp := { status := 429 }

/-- A 429 response carrying a `Retry-After` header. -/
def r429ra (v : RAVal) : HResp := { status := 429, retryAfter := some v }

/-- A 200 response with a parsed JSON envelope. -/
def ok200 (j : PageJson) : HResp := { status := 200, json := some j }

/-- A successful page response carrying `accounts`. -/
def okPage (p : List RawAccount) : HResp := { status := 200, json := some { accounts := p } }

/-- A scripted sequence of successful page responses. -/
def toScript (ps : List (List RawAccount)) : List HResp := ps.map okPage

/-- Partial sums of a length list, starting at 0 and including the final
offset; used to state which offsets the streaming fetch requests. -/
def prefixSums : List Nat → List Nat
  | [] => [0]
  | n :: ns => 0 :: (prefixSums ns).map (fun x => n + x)

/-- Concrete raw payload used by the witness theorems. -/
def wPayload : RawAccount := { id := some (.vInt 1) }

/-- Concrete normalized row (tagged for the ENDY group) used by the
witness theorems. -/
def wNorm : NormalizedAccount :=
  { email_account_id := 1, account_id := 1, from_email := "a@b.c", from_name := "A",
    account_type := "GMAIL", tags := "x00en-3", disconnection_type := some "SMTP",
    payload := wPayload }

/-- Concrete normalized row with no tags, used by the witness theorems. -/
def wDefault : NormalizedAccount :=
  { email_account_id := 2, account_id := 2, from_email := "d@b.c", from_name := "D",
    account_type := "GMAIL", tags := "", disconnection_type := some "IMAP",
    payload := wPayload }

/-- Concrete stored row (currently reconnected, count 3) used by the
witness theorems. -/
def wOld : DRow :=
  { email_account_id := 1, account_id := 1, from_email := "a@b.c", from_name := "A",
    account_type := "GMAIL", tags := "x00en-3", disconnection_type := some "SMTP",
    first_disconnected_at := 10, last_seen_disconnected_at := 20,
    currently_disconnected := false, disconnect_count := 3, last_payload := wPayload }

/-- Concrete one-row store used by the witness theorems. -/
def wStore : Store := [(1, wOld)]

/-- Concrete raw record with an integer id and a failing SMTP flag. -/
def wItem5 : RawAccount :=
  { id := some (.vInt 7), is_smtp_success := some (.vBool false) }

/-- The normalized result of `wItem5`. -/
def wAcct5 : NormalizedAccount :=
  { email_account_id := 7, account_id := 7, from_email := "", from_name := "",
    account_type := "", tags := "", disconnection_type := some "SMTP",
    payload := wItem5 }

/-- Concrete raw record whose id is a numeric string. -/
def wItem10 : RawAccount := { id := some (.vStr " 42 ") }

/-- The all-defaults raw record used by the witness theorems. -/
def wRaw : RawAccount := {}
theorem lookup_updWhere (d : Int → Bool) (f : DRow → DRow) (s : Store) (id : Int) :
    (updWhere d f s).lookup id = if d id then (s.lookup id).map f else s.lookup id := by
  induction s with
  | nil => cases h : d id <;> simp [updWhere, List.lookup, h]
  | cons p t ih =>
    obtain ⟨k, row⟩ := p
    have hmap : updWhere d f ((k, row) :: t) =
        (if d k then (k, f row) else (k, row)) :: updWhere d f t := by
      simp [updWhere]
    rw [hmap]
    by_cases hk : id = k
    · subst hk
      have hbeq : (id == id) = true := beq_self_eq_true id
      cases h : d id
      · rw [if_neg (by simp [h])]
        simp [List.lookup, hbeq, h]
      · rw [if_pos (by simp [h])]
        simp [List.lookup, hbeq, h]
    · have hbeq : (id == k) = false := beq_eq_false_iff_ne.mpr hk
      cases h : d k
      · rw [if_neg (by simp [h])]
        simp [List.lookup, hbeq, ih]
      · rw [if_pos (by simp [h])]
        simp [List.lookup, hbeq, ih]

theorem lookup_append_some (s t : Store) (id : Int) (v : DRow)
    (h : s.lookup id = some v) : (s ++ t).lookup id = some v := by
  induction s with
  | nil => simp [List.lookup] at h
  | cons p r ih =>
    obtain ⟨k, row⟩ := p
    by_cases hk : id = k
    · subst hk
      have hbeq : (id == id) = true := beq_self_eq_true id
      simp only [List.lookup, hbeq, List.cons_append] at h ⊢
      exact h
    · have hbeq : (id == k) = false := beq_eq_false_iff_ne.mpr hk
      simp only [List.lookup, hbeq, List.cons_append] at h ⊢
      exact ih h

theorem lookup_append_none (s t : Store) (id : Int)
    (h : s.lookup id = none) : (s ++ t).lookup id = t.lookup id := by
  induction s with
  | nil => simp
  | cons p r ih =>
    obtain ⟨k, row⟩ := p
    by_cases hk : id = k
    · subst hk
      have hbeq : (id == id) = true := beq_self_eq_true id
      simp only [List.lookup, hbeq] at h
      cases h
    · have hbeq : (id == k) = false := beq_eq_false_iff_ne.mpr hk
      simp only [List.lookup, hbeq, List.cons_append] at h ⊢
      exact ih h
theorem lookup_upsertRow_ne (now : Nat) (s : Store) (r : NormalizedAccount) (id : Int)
    (h : id ≠ r.email_account_id) : (upsertRow now s r).lookup id = s.lookup id := by
  unfold upsertRow
  cases hl : s.lookup r.email_account_id with
  | some old =>
    rw [lookup_updWhere]
    rw [if_neg (by simp [beq_eq_false_iff_ne.mpr h])]
  | none =>
    cases hsl : s.lookup id with
    | some v => exact lookup_append_some s _ id v hsl
    | none =>
      rw [lookup_append_none s _ id hsl]
      simp [List.lookup, beq_eq_false_iff_ne.mpr h]

theorem lookup_upsertRow_update (now : Nat) (s : Store) (r : NormalizedAccount) (old : DRow)
    (h : s.lookup r.email_account_id = some old) :
    (upsertRow now s r).lookup r.email_account_id = some (updateRow now old r) := by
  unfold upsertRow
  rw [h]
  rw [lookup_updWhere]
  rw [if_pos (beq_self_eq_true r.email_account_id)]
  rw [h]
  rfl

theorem lookup_upsertRow_insert (now : Nat) (s : Store) (r : NormalizedAccount)
    (h : s.lookup r.email_account_id = none) :
    (upsertRow now s r).lookup r.email_account_id = some (freshRow now r) := by
  unfold upsertRow
  rw [h]
  rw [lookup_append_none s _ _ h]
  simp [List.lookup, beq_self_eq_true]
theorem upsertRow_keeps_ct (now : Nat) (s : Store) (r : NormalizedAccount) (id : Int) (row : DRow)
    (h : s.lookup id = some row) (hc : row.currently_disconnected = true) :
    ∃ row', (upsertRow now s r).lookup id = some row' ∧
      row'.disconnect_count = row.disconnect_count ∧ row'.currently_disconnected = true := by
  by_cases hid : id = r.email_account_id
  · have hlk : s.lookup r.email_account_id = some row := by rw [← hid]; exact h
    refine ⟨updateRow now row r, ?_, ?_, ?_⟩
    · rw [hid]; exact lookup_upsertRow_update now s r row hlk
    · simp [updateRow, hc]
    · simp [updateRow]
  · rw [lookup_upsertRow_ne now s r id hid, h]
    exact ⟨row, rfl, rfl, hc⟩

theorem upsert_current_keeps_ct (now : Nat) (rows : List NormalizedAccount) :
    ∀ (s : Store) (id : Int) (row : DRow),
      s.lookup id = some row → row.currently_disconnected = true →
      ∃ row', (upsert_current now s rows).lookup id = some row' ∧
        row'.disconnect_count = row.disconnect_count ∧ row'.currently_disconnected = true := by
  induction rows with
  | nil => intro s id row h hc; exact ⟨row, h, rfl, hc⟩
  | cons r rs ih =>
    intro s id row h hc
    obtain ⟨row1, h1, hcnt1, hc1⟩ := upsertRow_keeps_ct now s r id row h hc
    obtain ⟨row2, h2, hcnt2, hc2⟩ := ih (upsertRow now s r) id row1 h1 hc1
    exact ⟨row2, h2, by rw [hcnt2, hcnt1], hc2⟩

theorem mem_of_lookup (s : Store) (id : Int) (row : DRow)
    (h : s.lookup id = some row) : (id, row) ∈ s := by
  induction s with
  | nil => simp [List.lookup] at h
  | cons p t ih =>
    obtain ⟨k, v⟩ := p
    by_cases hk : id = k
    · subst hk
      simp only [List.lookup, beq_self_eq_true] at h
      injection h with h
      subst h
      exact List.mem_cons_self _ _
    · simp only [List.lookup, beq_eq_false_iff_ne.mpr hk] at h
      exact List.mem_cons_of_mem _ (ih h)

theorem mem_load_prev_ids (s : Store) (id : Int) :
    id ∈ load_prev_ids s ↔ ∃ row, (id, row) ∈ s ∧ row.currently_disconnected = true := by
  unfold load_prev_ids
  simp only [List.mem_toFinset, List.mem_map, List.mem_filter]
  constructor
  · rintro ⟨⟨k, row⟩, ⟨hmem, hc⟩, rfl⟩
    exact ⟨row, hmem, hc⟩
  · rintro ⟨row, hmem, hc⟩
    exact ⟨(id, row), ⟨hmem, hc⟩, rfl⟩

theorem flagFalse_eq_self (r : DRow) (h : r.currently_disconnected = false) :
    { r with currently_disconnected := false } = r := by
  cases r
  simp_all

theorem upsert_current_sets_true (now : Nat) (rows : List NormalizedAccount) :
    ∀ (s : Store) (id : Int), id ∈ rows.map (fun r => r.email_account_id) →
      ∃ row', (upsert_current now s rows).lookup id = some row' ∧
        row'.currently_disconnected = true := by
  induction rows with
  | nil => intro s id h; simp at h
  | cons r rs ih =>
    intro s id h
    by_cases hid : id = r.email_account_id
    · have h1 : ∃ row1, (upsertRow now s r).lookup id = some row1 ∧
          row1.currently_disconnected = true := by
        cases hl : s.lookup r.email_account_id with
        | some old =>
          refine ⟨updateRow now old r, ?_, ?_⟩
          · rw [hid]; exact lookup_upsertRow_update now s r old hl
          · simp [updateRow]
        | none =>
          refine ⟨freshRow now r, ?_, rfl⟩
          rw [hid]; exact lookup_upsertRow_insert now s r hl
      obtain ⟨row1, hl1, hc1⟩ := h1
      obtain ⟨row2, hl2, _, hc2⟩ :=
        upsert_current_keeps_ct now rs (upsertRow now s r) id row1 hl1 hc1
      exact ⟨row2, hl2, hc2⟩
    · have hmem' : id ∈ rs.map (fun r => r.email_account_id) := by
        simp only [List.map_cons, List.mem_cons] at h
        rcases h with h' | h'
        · exact absurd h' hid
        · exact h'
      exact ih (upsertRow now s r) id hmem'

/-- C1: across any store state, when the bulk upsert writes an already
persisted row, `disconnect_count` is incremented by exactly 1 when the
stored `currently_disconnected` was `FALSE` immediately before the write
and is left unchanged when it was already `TRUE`; the flag itself is
forced `TRUE` either way. -/
theorem upsert_disconnect_count_spec (now : Nat) (rows : List NormalizedAccount)
    (id : Int) (old : DRow) :
    ∀ s : Store, s.lookup id = some old →
      id ∈ rows.map (fun r => r.email_account_id) →
      ∃ row', (upsert_current now s rows).lookup id = some row' ∧
        row'.disconnect_count =
          (if old.currently_disconnected then old.disconnect_count
           else old.disconnect_count + 1) ∧
        row'.currently_disconnected = true := by
  induction rows with
  | nil => intro s _ hmem; simp at hmem
  | cons r rs ih =>
    intro s hlk hmem
    by_cases hid : id = r.email_account_id
    · have hlk' : s.lookup r.email_account_id = some old := by rw [← hid]; exact hlk
      have hupd : (upsertRow now s r).lookup id = some (updateRow now old r) := by
        rw [hid]; exact lookup_upsertRow_update now s r old hlk'
      have hct : (updateRow now old r).currently_disconnected = true := by simp [updateRow]
      obtain ⟨row', h2, hcnt, hc⟩ :=
        upsert_current_keeps_ct now rs (upsertRow now s r) id (updateRow now old r) hupd hct
      refine ⟨row', h2, ?_, hc⟩
      rw [hcnt]
      cases hoc : old.currently_disconnected <;> simp [updateRow, hoc]
    · have hmem' : id ∈ rs.map (fun r => r.email_account_id) := by
        simp only [List.map_cons, List.mem_cons] at hmem
        rcases hmem with h' | h'
        · exact absurd h' hid
        · exact h'
      have hlk' : (upsertRow now s r).lookup id = some old := by
        rw [lookup_upsertRow_ne now s r id hid]; exact hlk
      exact ih (upsertRow now s r) hlk' hmem'
theorem mark_reconnected_lookup (prev curr : Finset Int) (s : Store) (id : Int) :
    (mark_reconnected prev curr s).lookup id =
      if id ∈ prev \ curr then
        (s.lookup id).map (fun row => { row with currently_disconnected := false })
      else s.lookup id := by
  simp only [mark_reconnected]
  by_cases hd : prev \ curr = ∅
  · rw [if_pos hd, if_neg (by simp [hd])]
  · rw [if_neg hd, lookup_updWhere]
    by_cases hm : id ∈ prev \ curr
    · rw [if_pos (by simp [hm]), if_pos hm]
    · rw [if_neg (by simp [hm]), if_neg hm]

theorem runPipeline_store_def (now : Nat) (tokenSet : Bool) (send : String → Bool)
    (s : Store) (current : List NormalizedAccount) :
    (runPipeline now tokenSet send s current).store =
      mark_reconnected (load_prev_ids s)
        ((current.map (fun r => r.email_account_id)).toFinset)
        (if current.isEmpty then s else upsert_current now s current) := rfl

theorem runPipeline_new_ids_def (now : Nat) (tokenSet : Bool) (send : String → Bool)
    (s : Store) (current : List NormalizedAccount) :
    (runPipeline now tokenSet send s current).new_ids =
      Finset.sort (· ≤ ·)
        (((current.map (fun r => r.email_account_id)).toFinset) \ load_prev_ids s) := rfl

theorem runPipeline_empty (now : Nat) (tokenSet : Bool) (send : String → Bool)
    (s : Store) :
    runPipeline now tokenSet send s [] =
      { store := mark_reconnected (load_prev_ids s) ∅ s, new_ids := [], attempts := [] } := by
  have h0 : ((∅ : Finset Int) \ load_prev_ids s) = ∅ := Finset.empty_sdiff _
  simp [runPipeline, h0, Finset.sort_empty]

/-- C6: `mark_reconnected` flips `currently_disconnected` to `FALSE` for
exactly the rows whose identifier lies in `prev - curr` and touches no
other field and no other row; a run over an empty fetch flips every
stored row to reconnected (leaving counters and timestamps as they were)
and dispatches nothing. -/
theorem mark_reconnected_frame_spec (prev curr : Finset Int) (s : Store) (id : Int)
    (now : Nat) (tokenSet : Bool) (send : String → Bool) (r : DRow) :
    ((mark_reconnected prev curr s).lookup id =
        if id ∈ prev \ curr then
          (s.lookup id).map (fun row => { row with currently_disconnected := false })
        else s.lookup id)
    ∧ (s.lookup id = some r →
        (runPipeline now tokenSet send s []).store.lookup id =
            some { r with currently_disconnected := false }
        ∧ (runPipeline now tokenSet send s []).attempts = []
        ∧ (runPipeline now tokenSet send s []).new_ids = []) := by
  refine ⟨mark_reconnected_lookup prev curr s id, ?_⟩
  intro h
  rw [runPipeline_empty]
  refine ⟨?_, rfl, rfl⟩
  dsimp only
  rw [mark_reconnected_lookup]
  by_cases hm : id ∈ load_prev_ids s \ (∅ : Finset Int)
  · rw [if_pos hm, h]
    rfl
  · rw [if_neg hm, h]
    have hf : r.currently_disconnected = false := by
      cases hcc : r.currently_disconnected
      · rfl
      · exact absurd (by
          rw [Finset.mem_sdiff]
          exact ⟨(mem_load_prev_ids s id).mpr ⟨r, mem_of_lookup s id r h, hcc⟩,
            Finset.not_mem_empty id⟩) hm
    rw [flagFalse_eq_self r hf]

/-- C2: the event set handed to the dispatcher is exactly
`curr_ids - prev_ids` with `prev_ids` loaded from the pre-upsert store,
and a second run over the identical fetch produces an empty
newly-disconnected set. -/
theorem newly_disconnected_spec (now now2 : Nat) (tokenSet : Bool) (send : String → Bool)
    (s : Store) (current : List NormalizedAccount) :
    ((runPipeline now tokenSet send s current).new_ids.toFinset =
        (current.map (fun r => r.email_account_id)).toFinset \ load_prev_ids s)
    ∧ (runPipeline now2 tokenSet send
        (runPipeline now tokenSet send s current).store current).new_ids = [] := by
  constructor
  · rw [runPipeline_new_ids_def]
    exact Finset.sort_toFinset _ _
  · rw [runPipeline_new_ids_def]
    have key : ((current.map (fun r => r.email_account_id)).toFinset : Finset Int) ⊆
        load_prev_ids (runPipeline now tokenSet send s current).store := by
      intro id hid
      have hmem : id ∈ current.map (fun r => r.email_account_id) :=
        List.mem_toFinset.mp hid
      have hne : current.isEmpty = false := by
        cases current with
        | nil => simp at hmem
        | cons a l => rfl
      obtain ⟨row, hlk, hct⟩ := upsert_current_sets_true now current s id hmem
      have hnot : id ∉ load_prev_ids s \
          (current.map (fun r => r.email_account_id)).toFinset := by
        rw [Finset.mem_sdiff]
        rintro ⟨-, hc⟩
        exact hc hid
      have hlk2 : (runPipeline now tokenSet send s current).store.lookup id = some row := by
        rw [runPipeline_store_def, hne]
        simp only [Bool.false_eq_true, if_false]
        rw [mark_reconnected_lookup, if_neg hnot]
        exact hlk
      exact (mem_load_prev_ids _ id).mpr ⟨row, mem_of_lookup _ id row hlk2, hct⟩
    rw [Finset.sdiff_eq_empty_iff_subset.mpr key, Finset.sort_empty]
/-- C5: the derived `disconnection_type` is `"SMTP + IMAP"` exactly when
both health flags read falsy, `"SMTP"` when only the SMTP flag does,
`"IMAP"` when only the IMAP flag does, and `None` otherwise; an absent
health flag defaults to healthy. -/
theorem disconnection_type_spec (item : RawAccount) (acct : NormalizedAccount)
    (h : normalize item = .ok acct) :
    (acct.disconnection_type = some "SMTP + IMAP" ↔
      (smtpHealthy item = false ∧ imapHealthy item = false))
    ∧ (acct.disconnection_type = some "SMTP" ↔
      (smtpHealthy item = false ∧ imapHealthy item = true))
    ∧ (acct.disconnection_type = some "IMAP" ↔
      (smtpHealthy item = true ∧ imapHealthy item = false))
    ∧ (acct.disconnection_type = none ↔
      (smtpHealthy item = true ∧ imapHealthy item = true))
    ∧ (item.is_smtp_success = none → smtpHealthy item = true)
    ∧ (item.is_imap_success = none → imapHealthy item = true) := by
  have hd : acct.disconnection_type =
      (if !smtpHealthy item && !imapHealthy item then some "SMTP + IMAP"
       else if !smtpHealthy item then some "SMTP"
       else if !imapHealthy item then some "IMAP"
       else none) := by
    unfold normalize at h
    cases hid : item.id with
    | none => rw [hid] at h; cases h
    | some v =>
      rw [hid] at h
      dsimp only at h
      cases hti : v.toIntOpt with
      | none => rw [hti] at h; cases h
      | some n =>
        rw [hti] at h
        dsimp only at h
        injection h with h
        rw [← h]
  refine ⟨?_, ?_, ?_, ?_, ?_, ?_⟩
  · rw [hd]; cases hs : smtpHealthy item <;> cases hi : imapHealthy item <;> simp
  · rw [hd]; cases hs : smtpHealthy item <;> cases hi : imapHealthy item <;> simp
  · rw [hd]; cases hs : smtpHealthy item <;> cases hi : imapHealthy item <;> simp
  · rw [hd]; cases hs : smtpHealthy item <;> cases hi : imapHealthy item <;> simp
  · intro h5; unfold smtpHealthy; rw [h5]; rfl
  · intro h5; unfold imapHealthy; rw [h5]; rfl

/-- C10: `normalize` succeeds exactly on records whose `id` key is
present and integer-convertible, in which case `email_account_id` is that
integer regardless of every other (defensively defaulted) field; a
missing or non-convertible `id` raises instead of defaulting. -/
theorem normalize_id_spec (item : RawAccount) :
    (∀ v n, item.id = some v → v.toIntOpt = some n →
      ∃ acct, normalize item = .ok acct ∧
        acct.email_account_id = n ∧ acct.account_id = n)
    ∧ (item.id = none → ∃ msg, normalize item = .error msg)
    ∧ (∀ v, item.id = some v → v.toIntOpt = none →
      ∃ msg, normalize item = .error msg) := by
  refine ⟨?_, ?_, ?_⟩
  · intro v n hv hn
    unfold normalize
    simp only [hv, hn]
    exact ⟨_, rfl, rfl, rfl⟩
  · intro h0
    refine ⟨"KeyError: id", ?_⟩
    unfold normalize
    rw [h0]
  · intro v hv hn
    refine ⟨"ValueError: id", ?_⟩
    unfold normalize
    simp only [hv, hn]
theorem tagMatches_upper (pat : String) (l : List String) :
    tagMatches pat l = (l.map upperStr).any (fun u => strContains u pat) := by
  unfold tagMatches
  rw [List.any_map]
  rfl

/-- C7: the `if`/`elif` chain of `classify_group` implements the ordered
first-match-wins rule table with a default group; classification only
depends on the upper-cased tags (case-insensitive matching); a record
matching only the ENDY substring goes to ENDY and a record matching no
rule goes to DEFAULT. -/
theorem classify_group_rules_spec (acct : NormalizedAccount) (l1 l2 : List String) :
    (classify_group acct = classifySpec (cleanTags acct.tags))
    ∧ (l1.map upperStr = l2.map upperStr → classifyTags l1 = classifyTags l2)
    ∧ ((tagMatches "00EN" (cleanTags acct.tags) = true ∧
        (∀ rule ∈ GROUP_RULES, rule.1 ≠ "00EN" →
          tagMatches rule.1 (cleanTags acct.tags) = false)) →
       classify_group acct = "ENDY")
    ∧ ((∀ rule ∈ GROUP_RULES, tagMatches rule.1 (cleanTags acct.tags) = false) →
       classify_group acct = "DEFAULT") := by
  refine ⟨?_, ?_, ?_, ?_⟩
  · show classifyTags (cleanTags acct.tags) = classifySpec (cleanTags acct.tags)
    generalize cleanTags acct.tags = tl
    unfold classifySpec GROUP_RULES classifyTags
    cases h1 : tagMatches "00VO" tl
    case true => simp [List.find?, h1]
    all_goals cases h2 : tagMatches "00EN" tl
    case true => simp [List.find?, h1, h2]
    all_goals cases h3 : tagMatches "00SM" tl
    case true => simp [List.find?, h1, h2, h3]
    all_goals cases h4 : tagMatches "00CI" tl
    case true => simp [List.find?, h1, h2, h3, h4]
    all_goals cases h5 : tagMatches "00WI" tl
    case true => simp [List.find?, h1, h2, h3, h4, h5]
    all_goals cases h6 : tagMatches "00IKR" tl
    case true => simp [List.find?, h1, h2, h3, h4, h5, h6]
    all_goals cases h7 : tagMatches "00PK" tl
    all_goals simp [List.find?, h1, h2, h3, h4, h5, h6, h7]
  · intro h
    simp only [classifyTags, tagMatches_upper, h]
  · rintro ⟨hEN, hothers⟩
    have hVO : tagMatches "00VO" (cleanTags acct.tags) = false :=
      hothers ("00VO", "VOLTIC") (by simp [GROUP_RULES]) (by decide)
    simp [classify_group, classifyTags, hVO, hEN]
  · intro hall
    have h1 := hall ("00VO", "VOLTIC") (by simp [GROUP_RULES])
    have h2 := hall ("00EN", "ENDY") (by simp [GROUP_RULES])
    have h3 := hall ("00SM", "SCALEDMAIL") (by simp [GROUP_RULES])
    have h4 := hall ("00CI", "CHEAPINBOXES") (by simp [GROUP_RULES])
    have h5 := hall ("00WI", "WINNR") (by simp [GROUP_RULES])
    have h6 := hall ("00IKR", "INBOXKIT") (by simp [GROUP_RULES])
    have h7 := hall ("00PK", "PEEKER") (by simp [GROUP_RULES])
    simp [classify_group, classifyTags, h1, h2, h3, h4, h5, h6, h7]
/-- C9: the set of per-group delivery attempts made by
`post_slack_grouped` is determined by the groups alone — a transport
failure (`send g = false`, the caught `SlackApiError`) neither aborts the
loop nor removes any other mapped group's attempt, and every group with a
configured channel is attempted whatever the other outcomes are. -/
theorem post_slack_isolation_spec (send send2 : String → Bool)
    (rows : List NormalizedAccount) :
    ((post_slack_grouped true send rows).map (fun a => (a.group, a.channel)) =
      (groupKeys rows).filterMap (fun g => (CHANNEL_MAP.lookup g).map (fun ch => (g, ch))))
    ∧ ((post_slack_grouped true send rows).map (fun a => (a.group, a.channel)) =
       (post_slack_grouped true send2 rows).map (fun a => (a.group, a.channel)))
    ∧ (∀ g ∈ groupKeys rows, ∀ ch, CHANNEL_MAP.lookup g = some ch →
       { group := g, channel := ch, ok := send g } ∈ post_slack_grouped true send rows) := by
  have key : ∀ sd : String → Bool,
      (post_slack_grouped true sd rows).map (fun a => (a.group, a.channel)) =
        (groupKeys rows).filterMap (fun g => (CHANNEL_MAP.lookup g).map (fun ch => (g, ch))) := by
    intro sd
    unfold post_slack_grouped
    rw [if_neg (by simp)]
    rw [List.map_filterMap]
    apply List.filterMap_congr
    intro g _
    cases h : CHANNEL_MAP.lookup g <;> simp [h]
  refine ⟨key send, by rw [key send, key send2], ?_⟩
  intro g hg ch hch
  unfold post_slack_grouped
  rw [if_neg (by simp)]
  refine List.mem_filterMap.mpr ⟨g, hg, ?_⟩
  rw [hch]
theorem selectFirst_two (h1 h2 : String) (s1 s2 : List HResp) :
    selectFirst [(h1, s1), (h2, s2)] =
      (if probe_ok s1 then .ok h1
       else if probe_ok s2 then .ok h2
       else .error (.tokenInvalid "Neither RAW nor BEARER Authorization formats worked")) := by
  cases hp1 : probe_ok s1 <;> cases hp2 : probe_ok s2 <;>
    simp [selectFirst, hp1, hp2]

/-- C4: `select_auth_headers` probes the raw encoding first and the
bearer encoding second, returns the first candidate whose probe yields a
success envelope, treats a probe that fails (401/403 or an
invalid-credential body raises `TokenInvalidError`) as "try the next
candidate", and raises `TokenInvalidError` exactly when both candidates
fail. -/
theorem select_auth_spec (token : String) (r b : List HResp) :
    ((make_header_variants token).2 =
      [(make_header_variants token).1, "Bearer " ++ (make_header_variants token).1])
    ∧ (select_auth_headers token r b =
        (if probe_ok r then .ok (make_header_variants token).1
         else if probe_ok b then .ok ("Bearer " ++ (make_header_variants token).1)
         else .error (.tokenInvalid "Neither RAW nor BEARER Authorization formats worked")))
    ∧ ((∃ e, select_auth_headers token r b = .error e) ↔
        (probe_ok r = false ∧ probe_ok b = false))
    ∧ (http_get_go 0 r = .error (.tokenInvalid "Auth rejected") → probe_ok r = false) := by
  have hvar : (make_header_variants token).2 =
      [(make_header_variants token).1, "Bearer " ++ (make_header_variants token).1] := by
    unfold make_header_variants
    dsimp only
  have hzip : select_auth_headers token r b =
      selectFirst [((make_header_variants token).1, r),
        ("Bearer " ++ (make_header_variants token).1, b)] := by
    unfold select_auth_headers
    rw [hvar]
    simp [List.zip]
  have hsel := hzip.trans
    (selectFirst_two (make_header_variants token).1
      ("Bearer " ++ (make_header_variants token).1) r b)
  refine ⟨hvar, hsel, ?_, ?_⟩
  · rw [hsel]
    cases hp1 : probe_ok r <;> cases hp2 : probe_ok b <;> simp [hp1, hp2]
  · intro h
    unfold probe_ok
    rw [h]
/-- C3 (amended): in the exporter's `http_get` a 429 retries the same
request, sleeping the parsed `Retry-After` when present, else the
linearly growing `1.5 * attempt`; the fifth consecutive 429
(`MAX_429_RETRIES + 1`) fails, while three 429s followed by a 200
succeed.  The monitor's `fetch_disconnected` instead retries a 429
without any bound, always sleeping a fixed 2 seconds. -/
theorem rate_limit_retry_spec (q : Rat) (j : PageJson) (rest script : List HResp)
    (limit n off : Nat) :
    (http_get (r429ra (.parseable q) :: ok200 j :: rest) =
      .ok ([q], ok200 j, rest))
    ∧ (http_get (r429 :: r429 :: r429 :: ok200 j :: rest) =
      .ok ([3 / 2, 3, 9 / 2], ok200 j, rest))
    ∧ (http_get (r429 :: r429 :: r429 :: r429 :: r429 :: rest) =
      .error (.nonRecoverable "Too many 429 responses"))
    ∧ (fetch_disconnected_go limit (List.replicate n r429 ++ script) off =
       (fetch_disconnected_go limit script off).map (fun res =>
         { res with offsets := List.replicate n off ++ res.offsets, sleeps := List.replicate n (2 : Rat) ++ res.sleeps })) := by
  have hab : authFailBody "" = false := by decide
  refine ⟨?_, ?_, ?_, ?_⟩
  · simp [http_get, http_get_go, r429ra, ok200, MAX_429_RETRIES, hab]
  · simp [http_get, http_get_go, r429, ok200, MAX_429_RETRIES, hab]
    norm_num
  · simp [http_get, http_get_go, r429, MAX_429_RETRIES, hab]
  · induction n with
    | zero =>
      cases hf : fetch_disconnected_go limit script off <;> simp [hf]
    | succ m ih =>
      rw [List.replicate_succ, List.cons_append]
      have step : fetch_disconnected_go limit (r429 :: (List.replicate m r429 ++ script)) off =
          (fetch_disconnected_go limit (List.replicate m r429 ++ script) off).map
            (fun res => { res with offsets := off :: res.offsets, sleeps := (2 : Rat) :: res.sleeps }) := by
        simp [fetch_disconnected_go, r429]
      rw [step, ih]
      cases hf : fetch_disconnected_go limit script off <;>
        simp [hf, List.replicate_succ]

/-- C3 counterexample: the monitor's fetch succeeds after five
consecutive 429s (where the claim demands a `RateLimitExhausted`
failure), and it sleeps the fixed 2 seconds even when the 429 carries a
parseable `Retry-After: 7`. -/
theorem fetch_429_counterexample :
    (fetch_disconnected [r429, r429, r429, r429, r429, okPage []] =
      some { offsets := [0, 0, 0, 0, 0, 0], items := [], sleeps := [2, 2, 2, 2, 2] })
    ∧ (fetch_disconnected [r429ra (.parseable 7), okPage []] =
      some { offsets := [0, 0], items := [], sleeps := [2] })
    ∧ ((2 : Rat) ≠ 7) := by
  exact ⟨by decide, by decide, by decide⟩
theorem fetch_go_pages (limit : Nat) (last : List RawAccount)
    (hlast : last.length < limit) (qs : List (List RawAccount)) :
    ∀ off, (∀ p ∈ qs, limit ≤ p.length) →
      fetch_disconnected_go limit (toScript (qs ++ [last])) off =
        some { offsets := (List.range (qs.length + 1)).map (fun i => off + i * limit),
               items := (qs ++ [last]).flatten, sleeps := [] } := by
  induction qs with
  | nil =>
    intro off _
    simp [toScript, okPage, fetch_disconnected_go, hlast, List.range_succ]
  | cons p ps ih =>
    intro off hall
    have hp : limit ≤ p.length := hall p (List.mem_cons_self _ _)
    have hnot : ¬ p.length < limit := not_lt.mpr hp
    have hscript : toScript ((p :: ps) ++ [last]) = okPage p :: toScript (ps ++ [last]) := rfl
    rw [hscript]
    have step : fetch_disconnected_go limit (okPage p :: toScript (ps ++ [last])) off =
        (fetch_disconnected_go limit (toScript (ps ++ [last])) (off + limit)).map
          (fun res => { res with offsets := off :: res.offsets, items := p ++ res.items }) := by
      simp [fetch_disconnected_go, okPage, hnot]
    rw [step, ih (off + limit) (fun q hq => hall q (List.mem_cons_of_mem _ hq))]
    have hoff : off :: (List.range (ps.length + 1)).map (fun i => (off + limit) + i * limit) =
        (List.range (ps.length + 1 + 1)).map (fun i => off + i * limit) := by
      conv_rhs => rw [List.range_succ_eq_map]
      rw [List.map_cons, List.map_map]
      congr 1
      · simp
      · apply List.map_congr_left
        intro i _
        simp only [Function.comp_apply, Nat.succ_eq_add_one]
        ring
    have hflat : ((p :: ps) ++ [last]).flatten = p ++ (ps ++ [last]).flatten := rfl
    have hlen : (p :: ps).length + 1 = ps.length + 1 + 1 := rfl
    rw [hflat, hlen, ← hoff]
    rfl

theorem stream_go_pages (qs : List (List RawAccount)) :
    ∀ off, (∀ p ∈ qs, p ≠ []) →
      stream_accounts_go (qs ++ [[]]) off =
        some ((prefixSums (qs.map List.length)).map (fun x => off + x), qs.flatten) := by
  induction qs with
  | nil =>
    intro off _
    simp [stream_accounts_go, prefixSums]
  | cons p ps ih =>
    intro off hall
    have hp : p ≠ [] := hall p (List.mem_cons_self _ _)
    have hne : p.isEmpty = false := by
      cases p with
      | nil => exact absurd rfl hp
      | cons a l => rfl
    have step : stream_accounts_go ((p :: ps) ++ [[]]) off =
        (stream_accounts_go (ps ++ [[]]) (off + p.length)).map
          (fun res => (off :: res.1, p ++ res.2)) := by
      simp [stream_accounts_go, hne]
    rw [step, ih (off + p.length) (fun q hq => hall q (List.mem_cons_of_mem _ hq))]
    have hoff : off :: (prefixSums (ps.map List.length)).map (fun x => (off + p.length) + x) =
        (prefixSums ((p :: ps).map List.length)).map (fun x => off + x) := by
      simp only [List.map_cons, prefixSums, List.map_map, Nat.add_zero]
      congr 1
      apply List.map_congr_left
      intro x _
      simp only [Function.comp_apply]
      omega
    have hflat : (p :: ps).flatten = p ++ ps.flatten := rfl
    rw [hflat, ← hoff]
    rfl

/-- C8 (amended): both fetchers start at offset 0 and return the
concatenation of the fetched pages without knowing the total in advance;
`fetch_disconnected` advances by the page size and stops exactly on a
page shorter than requested, while `stream_accounts` advances by the
number of records returned and stops only on an empty page. -/
theorem pagination_spec (limit : Nat) (qs qs2 : List (List RawAccount))
    (last : List RawAccount) (script : List HResp) :
    (fetch_disconnected script = fetch_disconnected_go REQUEST_LIMIT_PER_PAGE script 0)
    ∧ ((∀ p ∈ qs, limit ≤ p.length) → last.length < limit →
      fetch_disconnected_go limit (toScript (qs ++ [last])) 0 =
        some { offsets := (List.range (qs.length + 1)).map (fun i => i * limit),
               items := (qs ++ [last]).flatten, sleeps := [] })
    ∧ ((∀ p ∈ qs2, p ≠ []) →
      stream_accounts limit (qs2 ++ [[]]) =
        some (prefixSums (qs2.map List.length), qs2.flatten)) := by
  refine ⟨rfl, ?_, ?_⟩
  · intro h1 h2
    rw [fetch_go_pages limit last h2 qs 0 h1]
    simp
  · intro h
    unfold stream_accounts
    rw [stream_go_pages qs2 0 h]
    simp

/-- C8 counterexample: with a requested page size of 2, a first page
holding a single record does not stop `stream_accounts` — it keeps
requesting (offsets 0, 1, 2) and returns two records, where the claim's
stop-on-short-page rule would have stopped after the first page with one
record. -/
theorem stream_short_page_counterexample :
    stream_accounts 2 [[{}], [{}], []] = some ([0, 1, 2], [{}, {}])
    ∧ (([0, 1, 2] : List Nat) ≠ [0]
       ∧ ([({} : RawAccount), {}].length ≠ 1)) := by
  exact ⟨by decide, by decide, by decide⟩
theorem upsert_disconnect_count_witness :
    ∃ row', (upsert_current 30 wStore [wNorm]).lookup 1 = some row' ∧
      row'.disconnect_count =
        (if wOld.currently_disconnected then wOld.disconnect_count
         else wOld.disconnect_count + 1) ∧
      row'.currently_disconnected = true :=
  upsert_disconnect_count_spec 30 [wNorm] 1 wOld wStore (by decide) (by decide)

theorem select_auth_witness :
    probe_ok [({ status := 401 } : HResp)] = false :=
  (select_auth_spec "tok" [{ status := 401 }] []).2.2.2 rfl

theorem disconnection_type_witness :
    wAcct5.disconnection_type = some "SMTP" ↔
      (smtpHealthy wItem5 = false ∧ imapHealthy wItem5 = true) :=
  (disconnection_type_spec wItem5 wAcct5 rfl).2.1

theorem mark_reconnected_frame_witness :
    (runPipeline 40 true (fun _ => true) wStore []).store.lookup 1 =
        some { wOld with currently_disconnected := false }
    ∧ (runPipeline 40 true (fun _ => true) wStore []).attempts = []
    ∧ (runPipeline 40 true (fun _ => true) wStore []).new_ids = [] :=
  (mark_reconnected_frame_spec ∅ ∅ wStore 1 40 true (fun _ => true) wOld).2 (by decide)

theorem classify_group_rules_witness :
    classify_group wNorm = "ENDY"
    ∧ classifyTags ["abC"] = classifyTags ["ABc"]
    ∧ classify_group wDefault = "DEFAULT" :=
  ⟨(classify_group_rules_spec wNorm [] []).2.2.1 ⟨by decide, by decide⟩,
   (classify_group_rules_spec wDefault ["abC"] ["ABc"]).2.1 (by decide),
   (classify_group_rules_spec wDefault [] []).2.2.2 (by decide)⟩

theorem pagination_witness :
    (fetch_disconnected_go 2 (toScript ([[wRaw, wRaw]] ++ [[wRaw]])) 0 =
      some { offsets := (List.range ([[wRaw, wRaw]].length + 1)).map (fun i => i * 2),
             items := ([[wRaw, wRaw]] ++ [[wRaw]]).flatten, sleeps := [] })
    ∧ (stream_accounts 2 ([[wRaw]] ++ [[]]) =
      some (prefixSums ([[wRaw]].map List.length), [[wRaw]].flatten)) :=
  ⟨(pagination_spec 2 [[wRaw, wRaw]] [[wRaw]] [wRaw] []).2.1 (by decide) (by decide),
   (pagination_spec 2 [[wRaw, wRaw]] [[wRaw]] [wRaw] []).2.2 (by decide)⟩

theorem post_slack_isolation_witness :
    ({ group := "ENDY", channel := "C092TPDUW4A", ok := false } : SendAttempt) ∈
      post_slack_grouped true (fun _ => false) [wNorm] :=
  (post_slack_isolation_spec (fun _ => false) (fun _ => true) [wNorm]).2.2 "ENDY"
    (by decide) "C092TPDUW4A" (by decide)

theorem normalize_id_witness :
    ∃ acct, normalize wItem10 = .ok acct ∧
      acct.email_account_id = 42 ∧ acct.account_id = 42 :=
  (normalize_id_spec wItem10).1 (.vStr " 42 ") 42 rfl (by decide)
end SL
